import Mathlib

/-!
Verification of the entain repository's filtered list-query layer
(racing/db/races.go), the sports domain service (sports/service/sports.go)
and the API gateway startup (api/main.go), via a shallow embedding in Lean.

Machine integers of the Go source (int64 ids, timestamps) are modelled as
Int; a time.Time instant is modelled by its epoch-seconds value; the SQL
store is modelled as a function from a query string and positional
arguments to either an execution error or a list of raw row outcomes.
-/

namespace Entain

/-- Proto message ListRacesRequestFilter: meeting ids (membership
restriction), visible-only flag, and the order directive string. -/
structure ListRacesRequestFilter where
  meetingIds : List Int
  visibleOnly : Bool
  orderBy : String
deriving DecidableEq

/-- Go strings.Repeat: n copies of s concatenated. -/
def strRepeat (s : String) : Nat → String
  | 0 => ""
  | n + 1 => s ++ strRepeat s n

/-- Go strings.Join: elements concatenated with sep between them. -/
def strJoin (sep : String) : List String → String
  | [] => ""
  | [x] => x
  | x :: y :: xs => x ++ sep ++ strJoin sep (y :: xs)

/-- Modelled from the spec: the base races list query
getRaceQueries()[racesList]; the queries file is not under src, and §6 of
the spec fixes the persisted layout (id, grouping id, name, sequence
number, visible, advertised start time) read in this column order. Its
exact text is irrelevant to the theorems below: it is only ever used as an
opaque base string. -/
def racesListQuery : String :=
  "SELECT id, meeting_id, name, number, visible, advertised_start_time FROM races"

/-- applyFilter from racing/db/races.go: a nil filter returns the base
query untouched; otherwise predicate clauses (meeting-id membership, then
visibility) are joined with AND after WHERE, an ORDER BY on
advertised_start_time is appended, and the direction is appended when the
directive is exactly ASC or DESC. Arguments are the meeting ids, bound as
one positional placeholder each. -/
def applyFilter (query : String) (filter : Option ListRacesRequestFilter) :
    String × List Int :=
  match filter with
  | none => (query, [])
  | some f =>
    let clauses : List String :=
      (if f.meetingIds.length > 0 then
        ["meeting_id IN (" ++ strRepeat "?," (f.meetingIds.length - 1) ++ "?)"]
       else []) ++
      (if f.visibleOnly then ["visible=true"] else [])
    let args : List Int :=
      if f.meetingIds.length > 0 then f.meetingIds else []
    let q1 :=
      if clauses.length ≠ 0 then
        query ++ " WHERE " ++ strJoin " AND " clauses
      else query
    let q2 := q1 ++ " ORDER BY advertised_start_time"
    let q3 :=
      if f.orderBy.length > 0 ∧ (f.orderBy = "ASC" ∨ f.orderBy = "DESC") then
        q2 ++ " " ++ f.orderBy
      else q2
    (q3, args)

/-- A raw result row as scanned by rows.Scan, in the fixed column order
id, meeting_id, name, number, visible, advertised_start_time. -/
structure Row where
  id : Int
  meetingId : Int
  name : String
  number : Int
  visible : Bool
  advertisedStart : Int
deriving DecidableEq

/-- The racing.Race record produced by the mapper, including the derived,
never-persisted status attribute. -/
structure Race where
  id : Int
  meetingId : Int
  name : String
  number : Int
  visible : Bool
  advertisedStartTime : Int
  status : String
deriving DecidableEq

/-- ptypes.TimestampProto validity: the instant lies in the proto
timestamp range (0001-01-01 to 9999-12-31, in epoch seconds). -/
def tsValid (t : Int) : Bool :=
  (-62135596800 ≤ t) && (t ≤ 253402300799)

/-- ptypes.TimestampProto: converts a time value to the wire timestamp,
failing outside the representable range. -/
def timestampProto (t : Int) : Option Int :=
  if tsValid t then some t else none

/-- Outcome of one rows.Next / rows.Scan step: a scanned row, the
sql.ErrNoRows sentinel, or another scan error. -/
inductive ScanResult where
  | ok (row : Row)
  | errNoRows
  | err (e : String)
deriving DecidableEq

/-- The Race built from one successfully scanned row by the loop body of
scanRaces: the wire timestamp carries the same instant, and status is
CLOSED when the advertised start is strictly before now, OPEN otherwise. -/
def raceOfRow (now : Int) (row : Row) : Race :=
  { id := row.id, meetingId := row.meetingId, name := row.name,
    number := row.number, visible := row.visible,
    advertisedStartTime := row.advertisedStart,
    status := if row.advertisedStart < now then "CLOSED" else "OPEN" }

/-- The rows.Next loop of scanRaces, with the races accumulated so far: a
scan error that is sql.ErrNoRows returns nil races and nil error (an empty
success), any other scan error or timestamp-conversion failure aborts with
that error, and a scanned row is converted and appended in order. -/
def scanRacesLoop (now : Int) :
    List ScanResult → List Race → Except String (List Race)
  | [], races => Except.ok races
  | ScanResult.errNoRows :: _, _ => Except.ok []
  | ScanResult.err e :: _, _ => Except.error e
  | ScanResult.ok row :: rest, races =>
    match timestampProto row.advertisedStart with
    | none => Except.error "timestamp out of range"
    | some ts =>
      scanRacesLoop now rest (races ++
        [{ id := row.id, meetingId := row.meetingId, name := row.name,
           number := row.number, visible := row.visible,
           advertisedStartTime := ts,
           status := if row.advertisedStart < now then "CLOSED" else "OPEN" }])

/-- scanRaces from racing/db/races.go, over the already-fetched row
outcomes; now is the wall-clock instant time.Now() of the read. -/
def scanRaces (now : Int) (rows : List ScanResult) : Except String (List Race) :=
  scanRacesLoop now rows []

/-- List from racing/db/races.go: build the query and arguments with
applyFilter over the base list query, execute them against the store, and
map the rows with scanRaces. The store is a parameter. -/
def listRaces (dbQuery : String → List Int → Except String (List ScanResult))
    (now : Int) (filter : Option ListRacesRequestFilter) :
    Except String (List Race) :=
  let qa := applyFilter racesListQuery filter
  match dbQuery qa.1 qa.2 with
  | Except.error e => Except.error e
  | Except.ok rows => scanRaces now rows

/-- The query string built by Get: the base list query with the
identifier concatenated in as a decimal literal
(strconv.FormatInt(id, 10)), not bound as a parameter. -/
def raceGetQuery (id : Int) : String :=
  racesListQuery ++ " WHERE id=" ++ toString id

/-- Get from racing/db/races.go: executes the concatenated single-record
query with an empty argument list, maps the rows, and guards the
zero-row case (returning no race and no error) before taking races[0]. -/
def getRace (dbQuery : String → List Int → Except String (List ScanResult))
    (now : Int) (id : Int) : Except String (Option Race) :=
  match dbQuery (raceGetQuery id) [] with
  | Except.error e => Except.error e
  | Except.ok rows =>
    match scanRaces now rows with
    | Except.error e => Except.error e
    | Except.ok [] => Except.ok none
    | Except.ok (race :: _) => Except.ok (some race)

/-- Observable state of one racesRepo instance: whether its sync.Once has
fired, plus a ghost count of seed executions. -/
structure RacesRepoState where
  initDone : Bool
  seedRuns : Nat
deriving DecidableEq

/-- NewRacesRepo: fresh repository, seed never run. -/
def newRacesRepo : RacesRepoState :=
  { initDone := false, seedRuns := 0 }

/-- Init from racing/db/races.go, sequentialized sync.Once semantics: the
local err starts nil; init.Do runs the seed closure only on the first
call, so only that call observes the seed result (seedResult, fixed per
instance), and every later call returns the still-nil local err. -/
def initRaces (seedResult : Option String) (s : RacesRepoState) :
    Option String × RacesRepoState :=
  if s.initDone then (none, s)
  else (seedResult, { initDone := true, seedRuns := s.seedRuns + 1 })

/-- n successive Init calls on the same repository instance. -/
def initRacesIter (seedResult : Option String) : Nat → RacesRepoState → RacesRepoState
  | 0, s => s
  | n + 1, s => initRacesIter seedResult n (initRaces seedResult s).2

/-- Outcome of the gateway's run (api/main.go): a registration error
returned before serving, or reaching http.ListenAndServe. -/
inductive GatewayOutcome where
  | failed (e : String)
  | serving
deriving DecidableEq

/-- run from api/main.go: register the racing handler (returning its
error on failure), then the sports handler (likewise), and only then
start serving HTTP. Each registration outcome is a parameter (none =
success). -/
def run (racingReg sportsReg : Option String) : GatewayOutcome :=
  match racingReg with
  | some e => GatewayOutcome.failed e
  | none =>
    match sportsReg with
    | some e => GatewayOutcome.failed e
    | none => GatewayOutcome.serving

/-- sports.ListEventsResponse: the envelope holding the events slice. -/
structure ListEventsResponse (α : Type) where
  events : List α
deriving DecidableEq

/-- sports.ListEventsRequest: carries the optional filter object. -/
structure ListEventsRequest (β : Type) where
  filter : Option β
deriving DecidableEq

/-- ListEvents from sports/service/sports.go: delegate the request's
filter to the repository's List; on error return that error (and no
response), otherwise wrap the returned slice in a response envelope. The
repository List is a parameter. -/
def listEvents {α β : Type}
    (repoList : Option β → Except String (List α))
    (req : ListEventsRequest β) : Except String (ListEventsResponse α) :=
  match repoList req.filter with
  | Except.error e => Except.error e
  | Except.ok events => Except.ok { events := events }

/-- Statement vocabulary: the WHERE clause applyFilter emits for a
present filter, as a function of the identifier count and the flag. -/
def whereClause (f : ListRacesRequestFilter) : String :=
  if f.meetingIds.length > 0 then
    " WHERE " ++ ("meeting_id IN (" ++ strRepeat "?," (f.meetingIds.length - 1) ++ "?)"
      ++ (if f.visibleOnly then " AND " ++ "visible=true" else ""))
  else if f.visibleOnly then " WHERE " ++ "visible=true" else ""

/-- Statement vocabulary: the ORDER BY clause, direction taken exactly
when the directive is ASC or DESC. -/
def orderClause (ob : String) : String :=
  " ORDER BY advertised_start_time" ++
    (if ob = "ASC" ∨ ob = "DESC" then " " ++ ob else "")

/-- Statement vocabulary: number of occurrences of a character in a string. -/
def countChar (c : Char) (s : String) : Nat :=
  s.toList.count c

/-- Statement vocabulary: a mapped record's status agrees with the
strict-before comparison against the evaluation instant, and is one of
exactly the two values OPEN and CLOSED. -/
def statusOk (now : Int) (r : Race) : Prop :=
  (r.status = "CLOSED" ↔ r.advertisedStartTime < now) ∧
  (r.status = "OPEN" ∨ r.status = "CLOSED")

/-- The length guard in applyFilter's order-directive test is redundant:
the test holds exactly when the directive is ASC or DESC. -/
theorem orderCond (ob : String) :
    (ob.length > 0 ∧ (ob = "ASC" ∨ ob = "DESC")) ↔ (ob = "ASC" ∨ ob = "DESC") := by
  constructor
  · rintro ⟨_, h⟩; exact h
  · rintro (h | h) <;> subst h <;> exact ⟨by decide, by simp⟩

/-- Characterization of applyFilter on a present filter: the produced
query is the base query, the WHERE clause, then the ORDER BY clause, and
the arguments are exactly the meeting ids. -/
theorem applyFilter_some (q : String) (f : ListRacesRequestFilter) :
    applyFilter q (some f) =
      (q ++ whereClause f ++ orderClause f.orderBy, f.meetingIds) := by
  rcases f with ⟨ids, vis, ob⟩
  by_cases h : ob = "ASC" ∨ ob = "DESC"
  · rcases h with h | h <;> subst h <;> cases ids <;> cases vis <;>
      simp [applyFilter, whereClause, orderClause, strJoin, String.append_assoc] <;>
      intro hlen <;> exact absurd hlen (by decide)
  · cases ids <;> cases vis <;>
      simp [applyFilter, whereClause, orderClause, strJoin, h, String.append_assoc]

/-- Inversion for the timestamp conversion. -/
theorem timestampProto_eq_some {t ts : Int} :
    timestampProto t = some ts ↔ (tsValid t = true ∧ ts = t) := by
  unfold timestampProto
  split
  next h =>
    constructor
    · intro he
      injection he with he
      exact ⟨h, he.symm⟩
    · rintro ⟨_, he⟩
      subst he
      rfl
  next h =>
    constructor
    · intro he
      cases he
    · rintro ⟨hv, _⟩
      exact absurd hv h

/-- Every record the scan loop returns satisfies statusOk, provided the
accumulator's records already do. -/
theorem scanRacesLoop_statusOk (now : Int) :
    ∀ (rows : List ScanResult) (acc races : List Race),
      (∀ r ∈ acc, statusOk now r) →
      scanRacesLoop now rows acc = Except.ok races →
      ∀ r ∈ races, statusOk now r := by
  intro rows
  induction rows with
  | nil =>
    intro acc races hacc h
    simp [scanRacesLoop] at h
    subst h
    exact hacc
  | cons head rest ih =>
    intro acc races hacc h
    cases head with
    | errNoRows =>
      simp [scanRacesLoop] at h
      subst h
      intro r hr
      simp at hr
    | err e => simp [scanRacesLoop] at h
    | ok row =>
      cases hts : timestampProto row.advertisedStart with
      | none => simp [scanRacesLoop, hts] at h
      | some ts =>
        simp only [scanRacesLoop, hts] at h
        obtain ⟨hv, hts'⟩ := timestampProto_eq_some.mp hts
        refine ih _ races ?_ h
        intro r hr
        rcases List.mem_append.mp hr with h1 | h2
        · exact hacc r h1
        · simp at h2
          subst h2
          subst hts'
          by_cases hlt : row.advertisedStart < now <;> simp [statusOk, hlt]

/-- On an all-successful row stream with convertible timestamps, the scan
loop succeeds and appends the mapped records in row order. -/
theorem scanRacesLoop_map_ok (now : Int) :
    ∀ (rows : List Row) (acc : List Race),
      (∀ r ∈ rows, tsValid r.advertisedStart = true) →
      scanRacesLoop now (rows.map ScanResult.ok) acc =
        Except.ok (acc ++ rows.map (raceOfRow now)) := by
  intro rows
  induction rows with
  | nil =>
    intro acc _
    simp [scanRacesLoop]
  | cons row rest ih =>
    intro acc h
    have hv : tsValid row.advertisedStart = true := h row (by simp)
    have hts : timestampProto row.advertisedStart = some row.advertisedStart := by
      simp [timestampProto, hv]
    simp only [List.map_cons, scanRacesLoop, hts]
    rw [ih]
    · simp [raceOfRow]
    · intro r hr
      exact h r (by simp [hr])

/-- countChar distributes over string append. -/
theorem countChar_append (c : Char) (a b : String) :
    countChar c (a ++ b) = countChar c a + countChar c b := by
  simp [countChar, String.toList, String.data_append]

/-- Each copy of the placeholder pair contributes one question mark. -/
theorem countChar_strRepeat : ∀ n, countChar '?' (strRepeat "?," n) = n := by
  intro n
  induction n with
  | zero => rfl
  | succ n ih =>
    rw [strRepeat, countChar_append, ih]
    rw [show countChar '?' "?," = 1 from rfl]
    omega

/-- Once the sync.Once of a repository instance has fired, any further
sequence of Init calls leaves its state unchanged. -/
theorem initRacesIter_done (res : Option String) :
    ∀ (n : Nat) (s : RacesRepoState), s.initDone = true →
      initRacesIter res n s = s := by
  intro n
  induction n with
  | zero => intro s _; rfl
  | succ n ih =>
    intro s h
    rw [initRacesIter]
    rw [show (initRaces res s).2 = s by simp [initRaces, h]]
    exact ih s h

/-- C1 counterexample: for an absent (nil) Filter, applyFilter returns
the base query unchanged — here the one-character base query "Q" — and
no ORDER BY clause on advertised_start_time ends the produced string
(neither the bare clause nor an ASC- or DESC-directed one is a suffix),
so the claim's "including an absent Filter" universality fails. -/
theorem C1_claim_counterexample :
    (applyFilter "Q" none).1 = "Q" ∧
    ¬ (" ORDER BY advertised_start_time").toList <:+ "Q".toList ∧
    ¬ (" ASC").toList <:+ "Q".toList ∧
    ¬ (" DESC").toList <:+ "Q".toList :=
  ⟨rfl, by decide, by decide, by decide⟩

/-- C1 (amended): for every present Filter the produced query string ends
with the ORDER BY clause on advertised_start_time, whose direction is
taken from the Filter's order directive exactly when that directive is
the string "ASC" or "DESC" (case-sensitive) and is the ascending default
otherwise; for an absent (nil) Filter the base query is returned
unchanged, with no ORDER BY clause appended at all. -/
theorem C1_order_by (q : String) (f : ListRacesRequestFilter) :
    (∃ pre, (applyFilter q (some f)).1 = pre ++ orderClause f.orderBy) ∧
    ((f.orderBy = "ASC" ∨ f.orderBy = "DESC") →
      orderClause f.orderBy =
        " ORDER BY advertised_start_time" ++ " " ++ f.orderBy) ∧
    (¬ (f.orderBy = "ASC" ∨ f.orderBy = "DESC") →
      orderClause f.orderBy = " ORDER BY advertised_start_time") ∧
    applyFilter q none = (q, []) := by
  refine ⟨⟨q ++ whereClause f, ?_⟩, ?_, ?_, rfl⟩
  · rw [applyFilter_some]
  · intro h
    simp [orderClause, h, ← String.append_assoc]
  · intro h
    simp [orderClause, h]

/-- C1 witness: instantiation at a DESC directive and at an unrecognized
directive, with each hypothesis discharged concretely. -/
theorem C1_order_by_witness :
    (∃ pre, (applyFilter "Q" (some ⟨[], false, "DESC"⟩)).1 =
      pre ++ orderClause "DESC") ∧
    orderClause "DESC" = " ORDER BY advertised_start_time" ++ " " ++ "DESC" ∧
    orderClause "down" = " ORDER BY advertised_start_time" :=
  ⟨(C1_order_by "Q" ⟨[], false, "DESC"⟩).1,
   (C1_order_by "Q" ⟨[], false, "DESC"⟩).2.1 (by simp),
   (C1_order_by "Q" ⟨[], false, "down"⟩).2.2.1 (by decide)⟩

/-- C2 counterexample: the query builder does not treat a
present-but-empty Filter identically to an absent Filter — on the base
query "Q" the two calls produce different results (the present Filter
appends the default ORDER BY clause, the absent one does not). -/
theorem C2_claim_counterexample :
    applyFilter "Q"
        (some { meetingIds := [], visibleOnly := false, orderBy := "" }) ≠
      applyFilter "Q" none := by
  decide

/-- C2 (amended): a present Filter with empty identifier set and unset
narrowing flag yields, like an absent Filter, no WHERE clause and an
empty argument list, but additionally appends the ORDER BY clause
(consulting the empty order directive), which the absent-Filter path
omits; the two produced query strings therefore differ, so identical
List output is not guaranteed by the builder. -/
theorem C2_empty_filter (q : String) (f : ListRacesRequestFilter)
    (hids : f.meetingIds = []) (hvis : f.visibleOnly = false) :
    applyFilter q (some f) = (q ++ orderClause f.orderBy, []) ∧
    applyFilter q none = (q, []) := by
  refine ⟨?_, rfl⟩
  rw [applyFilter_some, hids]
  simp [whereClause, hids, hvis]

/-- C2 witness: the empty filter against the base query "Q". -/
theorem C2_empty_filter_witness :
    applyFilter "Q" (some ⟨[], false, ""⟩) = ("Q" ++ orderClause "", []) ∧
    applyFilter "Q" (none : Option ListRacesRequestFilter) = ("Q", []) :=
  C2_empty_filter "Q" ⟨[], false, ""⟩ rfl rfl

/-- C3 counterexample: Init's error variable is local to each call and
init.Do runs its closure only once per instance, so when the first Init
fails with "seed failed", a second Init on the same instance returns nil
— not the same failure, refuting the shared-outcome part of the claim. -/
theorem C3_claim_counterexample :
    initRaces (some "seed failed") newRacesRepo =
      (some "seed failed", { initDone := true, seedRuns := 1 }) ∧
    (initRaces (some "seed failed")
        { initDone := true, seedRuns := 1 }).1 = none ∧
    (none : Option String) ≠ some "seed failed" := by
  decide

/-- C3 (amended): Init runs the seed logic at most once per repository
instance no matter how many times it is invoked: the first call runs the
seed and returns its outcome, and every later call runs nothing and
returns nil — it does not repeat the first call's failure. -/
theorem C3_init_once (res : Option String) :
    initRaces res newRacesRepo = (res, { initDone := true, seedRuns := 1 }) ∧
    (∀ s : RacesRepoState, s.initDone = true → initRaces res s = (none, s)) ∧
    (∀ n, (initRacesIter res n newRacesRepo).seedRuns ≤ 1) := by
  refine ⟨rfl, ?_, ?_⟩
  · intro s h
    simp [initRaces, h]
  · intro n
    cases n with
    | zero => exact Nat.zero_le 1
    | succ n =>
      rw [initRacesIter]
      rw [show (initRaces res newRacesRepo).2 =
        { initDone := true, seedRuns := 1 } from rfl]
      rw [initRacesIter_done res n _ rfl]

/-- C3 witness: a failing seed, an already-initialized state, and three
successive calls. -/
theorem C3_init_once_witness :
    initRaces (some "x") newRacesRepo =
      (some "x", { initDone := true, seedRuns := 1 }) ∧
    initRaces (some "x") { initDone := true, seedRuns := 5 } =
      (none, { initDone := true, seedRuns := 5 }) ∧
    (initRacesIter (some "x") 3 newRacesRepo).seedRuns ≤ 1 :=
  ⟨(C3_init_once (some "x")).1,
   (C3_init_once (some "x")).2.1 { initDone := true, seedRuns := 5 } rfl,
   (C3_init_once (some "x")).2.2 3⟩

/-- C4: when the store yields zero rows for the single-record query (an
identifier matching no stored record), Get returns the distinct
non-error outcome of no race and no error: it is neither a store error
nor a record pretending to be found, and no out-of-bounds access can
occur since getRace only pattern-matches the possibly-empty result. -/
theorem C4_get_not_found
    (db : String → List Int → Except String (List ScanResult))
    (now id : Int) (h : db (raceGetQuery id) [] = Except.ok []) :
    getRace db now id = Except.ok none ∧
    (∀ e, getRace db now id ≠ Except.error e) ∧
    (∀ race, getRace db now id ≠ Except.ok (some race)) := by
  have hg : getRace db now id = Except.ok none := by
    simp [getRace, h, scanRaces, scanRacesLoop]
  refine ⟨hg, ?_, ?_⟩ <;> intro x hx <;> rw [hg] at hx <;> simp at hx

/-- C4 witness: a store with no matching rows for identifier 7. -/
theorem C4_get_not_found_witness :
    getRace (fun _ _ => Except.ok []) 0 7 = Except.ok none :=
  (C4_get_not_found (fun _ _ => Except.ok []) 0 7 rfl).1

/-- C5: every record the mapper returns has status "CLOSED" exactly when
its advertised start time is strictly before the evaluation instant and
"OPEN" otherwise (an advertised start equal to the instant yields
"OPEN"); and since the status is recomputed at each read, mapping the
same stored row again at a later instant past the threshold flips the
status from "OPEN" to "CLOSED" with no write to the row. -/
theorem C5_status :
    (∀ (now : Int) (rows : List ScanResult) (races : List Race),
      scanRaces now rows = Except.ok races →
      ∀ r ∈ races,
        (r.status = "CLOSED" ↔ r.advertisedStartTime < now) ∧
        (¬ r.advertisedStartTime < now → r.status = "OPEN")) ∧
    (∀ (row : Row) (now₁ now₂ : Int), tsValid row.advertisedStart = true →
      ¬ row.advertisedStart < now₁ → row.advertisedStart < now₂ →
      scanRaces now₁ [ScanResult.ok row] = Except.ok [raceOfRow now₁ row] ∧
      scanRaces now₂ [ScanResult.ok row] = Except.ok [raceOfRow now₂ row] ∧
      (raceOfRow now₁ row).status = "OPEN" ∧
      (raceOfRow now₂ row).status = "CLOSED") := by
  constructor
  · intro now rows races h r hr
    have hs := scanRacesLoop_statusOk now rows [] races (by simp) h r hr
    refine ⟨hs.1, ?_⟩
    intro hnlt
    rcases hs.2 with ho | hc
    · exact ho
    · exact absurd (hs.1.mp hc) hnlt
  · intro row now₁ now₂ hv h₁ h₂
    have hts : timestampProto row.advertisedStart = some row.advertisedStart := by
      simp [timestampProto, hv]
    refine ⟨?_, ?_, ?_, ?_⟩
    · simp [scanRaces, scanRacesLoop, hts, raceOfRow]
    · simp [scanRaces, scanRacesLoop, hts, raceOfRow]
    · simp [raceOfRow, h₁]
    · simp [raceOfRow, h₂]

/-- C5 witness: a row whose advertised start is instant 10, evaluated at
instants 10 (exactly now, hence OPEN) and 11 (past, hence CLOSED). -/
theorem C5_status_witness :
    ((raceOfRow 10 ⟨1, 1, "r", 1, true, 10⟩).status = "CLOSED" ↔
      (raceOfRow 10 ⟨1, 1, "r", 1, true, 10⟩).advertisedStartTime < 10) ∧
    (raceOfRow 10 ⟨1, 1, "r", 1, true, 10⟩).status = "OPEN" ∧
    (raceOfRow 11 ⟨1, 1, "r", 1, true, 10⟩).status = "CLOSED" := by
  have h2 := C5_status.2 ⟨1, 1, "r", 1, true, 10⟩ 10 11
    (by decide) (by decide) (by decide)
  have h1 := C5_status.1 10 [ScanResult.ok ⟨1, 1, "r", 1, true, 10⟩]
    [raceOfRow 10 ⟨1, 1, "r", 1, true, 10⟩] h2.1
    (raceOfRow 10 ⟨1, 1, "r", 1, true, 10⟩) (by simp)
  exact ⟨h1.1, h2.2.2.1, h2.2.2.2⟩

/-- C6: for every present Filter the argument list is exactly the
meeting ids in order and the query is base ++ WHERE clause ++ ORDER BY
clause; a non-empty identifier set yields a membership clause on
meeting_id holding exactly one ? placeholder per identifier (the ids are
bound, never written into the text: the query string depends only on the
identifier count, the flag and the directive, as the last conjunct
states); an empty identifier set yields no IN clause at all; and when
the narrowing flag is set the visible=true equality clause is AND-joined
after the membership clause. -/
theorem C6_filter_clauses (q : String) (f : ListRacesRequestFilter) :
    (applyFilter q (some f)).2 = f.meetingIds ∧
    (applyFilter q (some f)).1 = q ++ whereClause f ++ orderClause f.orderBy ∧
    (f.meetingIds ≠ [] →
      whereClause f =
        " WHERE " ++ ("meeting_id IN ("
          ++ strRepeat "?," (f.meetingIds.length - 1) ++ "?)"
          ++ (if f.visibleOnly then " AND " ++ "visible=true" else "")) ∧
      countChar '?' (strRepeat "?," (f.meetingIds.length - 1) ++ "?")
        = f.meetingIds.length) ∧
    (f.meetingIds = [] →
      whereClause f =
        (if f.visibleOnly then " WHERE " ++ "visible=true" else "")) ∧
    (∀ g : ListRacesRequestFilter,
      g.meetingIds.length = f.meetingIds.length →
      g.visibleOnly = f.visibleOnly → g.orderBy = f.orderBy →
      (applyFilter q (some g)).1 = (applyFilter q (some f)).1) := by
  refine ⟨?_, ?_, ?_, ?_, ?_⟩
  · rw [applyFilter_some]
  · rw [applyFilter_some]
  · intro h
    constructor
    · rcases List.exists_cons_of_ne_nil h with ⟨a, rest, hf⟩
      simp [whereClause, hf]
    · rw [countChar_append, countChar_strRepeat,
        show countChar '?' "?" = 1 from rfl]
      rcases List.exists_cons_of_ne_nil h with ⟨a, rest, hf⟩
      simp [hf]
  · intro h
    simp [whereClause, h]
  · intro g h1 h2 h3
    rw [applyFilter_some, applyFilter_some, h3]
    rw [show whereClause g = whereClause f by simp only [whereClause, h1, h2]]

/-- C6 witness: two meeting ids with the narrowing flag set and a DESC
directive, plus a same-shape filter with different id values producing
the identical query text. -/
theorem C6_filter_clauses_witness :
    (applyFilter "Q" (some ⟨[4, 7], true, "DESC"⟩)).2 = [4, 7] ∧
    countChar '?' (strRepeat "?," ([4, 7] : List Int).length.pred ++ "?") =
      ([4, 7] : List Int).length ∧
    (applyFilter "Q" (some ⟨[5, 9], true, "DESC"⟩)).1 =
      (applyFilter "Q" (some ⟨[4, 7], true, "DESC"⟩)).1 :=
  ⟨(C6_filter_clauses "Q" ⟨[4, 7], true, "DESC"⟩).1,
   ((C6_filter_clauses "Q" ⟨[4, 7], true, "DESC"⟩).2.2.1 (by decide)).2,
   (C6_filter_clauses "Q" ⟨[4, 7], true, "DESC"⟩).2.2.2.2
     ⟨[5, 9], true, "DESC"⟩ rfl rfl rfl⟩

/-- C7: Get builds its query by appending to the reused base list query
an equality clause on id whose right-hand side is the identifier
rendered into the query text as a decimal literal (the base query is a
prefix and the decimal rendering a suffix of the result), and execution
receives an empty argument list: getRace consults the store only at the
pair (raceGetQuery id, []). -/
theorem C7_get_query (id : Int) :
    raceGetQuery id = racesListQuery ++ " WHERE id=" ++ toString id ∧
    racesListQuery.toList <+: (raceGetQuery id).toList ∧
    (toString id).toList <:+ (raceGetQuery id).toList ∧
    (∀ (db db' : String → List Int → Except String (List ScanResult))
        (now : Int),
      db (raceGetQuery id) [] = db' (raceGetQuery id) [] →
      getRace db now id = getRace db' now id) := by
  refine ⟨rfl, ?_, ?_, ?_⟩
  · rw [show (raceGetQuery id).toList =
      racesListQuery.toList ++ (" WHERE id=" ++ toString id).toList by
        simp [raceGetQuery, String.toList, String.data_append,
          String.append_assoc]]
    exact List.prefix_append _ _
  · rw [show (raceGetQuery id).toList =
      (racesListQuery ++ " WHERE id=").toList ++ (toString id).toList by
        simp [raceGetQuery, String.toList, String.data_append]]
    exact List.suffix_append _ _
  · intro db db' now h
    unfold getRace
    rw [h]

/-- C7 witness: identifier -5, and two stores agreeing at the built
query with the empty argument list. -/
theorem C7_get_query_witness :
    racesListQuery.toList <+: (raceGetQuery (-5)).toList ∧
    (toString (-5 : Int)).toList <:+ (raceGetQuery (-5)).toList ∧
    getRace (fun _ _ => Except.ok []) 0 (-5) =
      getRace (fun _ _ => Except.ok ([] : List ScanResult)) 0 (-5) :=
  ⟨(C7_get_query (-5)).2.1, (C7_get_query (-5)).2.2.1,
   (C7_get_query (-5)).2.2.2 _ _ 0 rfl⟩

/-- C8: the mapper turns zero rows into an empty successful result —
both the empty row stream and the sql.ErrNoRows sentinel yield an empty
sequence with no error — List correspondingly returns the empty sequence
rather than an error when the store yields no rows, and a fully
successful scan maps the rows in exactly their original order. -/
theorem C8_scan_empty :
    (∀ now : Int, scanRaces now [] = Except.ok []) ∧
    (∀ (now : Int) (rest : List ScanResult),
      scanRaces now (ScanResult.errNoRows :: rest) = Except.ok []) ∧
    (∀ (db : String → List Int → Except String (List ScanResult))
        (now : Int) (filter : Option ListRacesRequestFilter),
      db (applyFilter racesListQuery filter).1
          (applyFilter racesListQuery filter).2 = Except.ok [] →
      listRaces db now filter = Except.ok []) ∧
    (∀ (now : Int) (rows : List Row),
      (∀ r ∈ rows, tsValid r.advertisedStart = true) →
      scanRaces now (rows.map ScanResult.ok) =
        Except.ok (rows.map (raceOfRow now))) := by
  refine ⟨fun _ => rfl, fun _ _ => rfl, ?_, ?_⟩
  · intro db now filter h
    simp [listRaces, h, scanRaces, scanRacesLoop]
  · intro now rows h
    have := scanRacesLoop_map_ok now rows [] h
    simpa [scanRaces] using this

/-- C8 witness: a store with no rows for the unfiltered list, and a
one-row successful scan. -/
theorem C8_scan_empty_witness :
    listRaces (fun _ _ => Except.ok []) 0 none = Except.ok [] ∧
    scanRaces 5 [ScanResult.ok ⟨1, 2, "r", 3, true, 4⟩] =
      Except.ok [raceOfRow 5 ⟨1, 2, "r", 3, true, 4⟩] := by
  refine ⟨C8_scan_empty.2.2.1 _ 0 none rfl, ?_⟩
  have h := C8_scan_empty.2.2.2 5 [⟨1, 2, "r", 3, true, 4⟩] (by decide)
  simpa using h

/-- C9: the gateway's run reaches the HTTP listening step exactly when
both the racing and the sports handler registrations succeed; a racing
registration failure is returned at once, and so is a sports
registration failure after a successful racing registration — serving
never begins alongside a failed registration, so there is no
partial-availability mode. -/
theorem C9_gateway (r s : Option String) :
    (run r s = GatewayOutcome.serving ↔ (r = none ∧ s = none)) ∧
    (∀ e, r = some e → run r s = GatewayOutcome.failed e) ∧
    (∀ e, r = none → s = some e → run r s = GatewayOutcome.failed e) := by
  cases r <;> cases s <;> simp [run]

/-- C9 witness: racing registration succeeds but sports registration
fails, so the gateway returns that failure instead of serving. -/
theorem C9_gateway_witness :
    run none (some "sports registration failed") =
      GatewayOutcome.failed "sports registration failed" :=
  (C9_gateway none (some "sports registration failed")).2.2
    "sports registration failed" rfl rfl

/-- C10: ListEvents hands the request's filter unchanged to the
repository's List — its outcome depends only on the repository's answer
at that filter — and on a repository error returns that same error with
no response, while on success it returns a response envelope whose
events field is exactly the repository's slice, untransformed. -/
theorem C10_list_events {α β : Type}
    (repoList : Option β → Except String (List α))
    (req : ListEventsRequest β) :
    (∀ e, repoList req.filter = Except.error e →
      listEvents repoList req = Except.error e) ∧
    (∀ events, repoList req.filter = Except.ok events →
      listEvents repoList req = Except.ok { events := events }) ∧
    (∀ repoList' : Option β → Except String (List α),
      repoList' req.filter = repoList req.filter →
      listEvents repoList' req = listEvents repoList req) := by
  refine ⟨?_, ?_, ?_⟩ <;> intro x h <;> simp [listEvents, h]

/-- C10 witness: a failing repository propagates its error and a
successful repository's slice is returned verbatim in the envelope. -/
theorem C10_list_events_witness :
    listEvents (fun _ => Except.error "db down")
        ({ filter := none } : ListEventsRequest Nat) =
      (Except.error "db down" : Except String (ListEventsResponse Nat)) ∧
    listEvents (fun _ => Except.ok [3])
        ({ filter := none } : ListEventsRequest Nat) =
      Except.ok ({ events := [3] } : ListEventsResponse Nat) :=
  ⟨(C10_list_events (fun _ => Except.error "db down")
      ({ filter := none } : ListEventsRequest Nat)).1 "db down" rfl,
   (C10_list_events (fun _ => Except.ok [3])
      ({ filter := none } : ListEventsRequest Nat)).2.1 [3] rfl⟩

